import Mathlib

/-!
Verification of the MEFEN volunteer-shift scheduling client.

The repository is a React client over a hierarchical real-time store.  The
logic verified here is the pure core identified by the spec: the Temporal
Classifier, the Filter/Sort Engine, the Calendar Aggregator, the Assignment
Mutation Service (bulk create and delete, modelled as event traces / state
transitions) and the public self-registration form.

Encoding conventions:
* Dates are compared at day granularity throughout the source (every path
  either zeroes the time-of-day with `setHours(0,0,0,0)` or works with
  `parseISO` of plain `yyyy-MM-dd` strings, which are midnight instants).
  A calendar day is therefore encoded as a `Nat` (days since an arbitrary
  epoch); `≤` on `Nat` coincides with the `Date` comparisons of the source.
* Records are structures mirroring the TypeScript shapes.
* JavaScript's stable `Array.prototype.sort` with a comparator `c` is
  modelled as `List.insertionSort` (Mathlib's stable insertion sort) with
  the relation `c a b ≤ 0`.
-/

namespace Mefen

/-! ## Data model (§3 of the spec; TypeScript record shapes) -/

/-- A volunteer record (`volunteers/{id}`): id, firstName, lastName. -/
structure Volunteer where
  id : String
  firstName : String
  lastName : String
  deriving DecidableEq

/-- A room record (`rooms/{id}`): id, name (optional channel omitted —
no verified claim mentions it). -/
structure Room where
  id : String
  name : String
  deriving DecidableEq

/-- An assignment record (`plannings/{id}`).  `startDate`/`endDate` are
ISO dates, encoded as epoch-day numbers.  `isResponsible` is optional in
the source (`isResponsible?: boolean`); a missing field is falsy, so it
is encoded as a `Bool` defaulting to `false`. -/
structure Planning where
  id : String
  volunteerId : String
  roomId : String
  startDate : Nat
  endDate : Nat
  isResponsible : Bool := false
  deriving DecidableEq

/-! ## Temporal Classifier (planning.tsx, `activePlannings` /
`upcomingPlannings` / `pastPlannings`, lines 551–575)

The source zeroes the time of day on `now`, `start` and `end` and then
compares `Date` objects; at day granularity this is `Nat` comparison. -/

/-- `start <= now && end >= now` (planning.tsx line 560). -/
def isActive (today : Nat) (p : Planning) : Bool :=
  p.startDate ≤ today && p.endDate ≥ today

/-- `start > now` (planning.tsx line 567). -/
def isUpcoming (today : Nat) (p : Planning) : Bool :=
  p.startDate > today

/-- `end < now` (planning.tsx line 574). -/
def isPast (today : Nat) (p : Planning) : Bool :=
  p.endDate < today

/-- `plannings.filter(...)` for the Active bucket. -/
def activePlannings (today : Nat) (plannings : List Planning) : List Planning :=
  plannings.filter (isActive today)

/-- `plannings.filter(...)` for the Upcoming bucket. -/
def upcomingPlannings (today : Nat) (plannings : List Planning) : List Planning :=
  plannings.filter (isUpcoming today)

/-- `plannings.filter(...)` for the Past bucket. -/
def pastPlannings (today : Nat) (plannings : List Planning) : List Planning :=
  plannings.filter (isPast today)

/-! ## String helpers for the Filter/Sort Engine

JavaScript `String.prototype.toLowerCase` is modelled character-wise and
`String.prototype.includes` as a contiguous-sublist test on the character
list. -/

/-- `s.toLowerCase()`, as a character list. -/
def lowerChars (s : String) : List Char :=
  s.data.map Char.toLower

/-- Whether the first list is an initial segment of the second. -/
def startsWithL : List Char → List Char → Bool
  | [], _ => true
  | _ :: _, [] => false
  | a :: as, b :: bs => a == b && startsWithL as bs

/-- `haystack.includes(needle)`: `needle` occurs contiguously in
`haystack` (the empty needle occurs in everything, as in JavaScript). -/
def hasSub (needle : List Char) : List Char → Bool
  | [] => startsWithL needle []
  | c :: t => startsWithL needle (c :: t) || hasSub needle t

/-- `volunteers.find(v => v.id === vid)`. -/
def findVolunteer (volunteers : List Volunteer) (vid : String) : Option Volunteer :=
  volunteers.find? (fun v => v.id == vid)

/-- `rooms.find(r => r.id === rid)`. -/
def findRoom (rooms : List Room) (rid : String) : Option Room :=
  rooms.find? (fun r => r.id == rid)

/-- The template literal `` `${volunteer.firstName} ${volunteer.lastName}` ``. -/
def volunteerFullName (v : Volunteer) : String :=
  v.firstName ++ " " ++ v.lastName

/-! ## Filter/Sort Engine (planning.tsx, `PlanningTable`, lines 64–101) -/

/-- `matchesSearch` (planning.tsx lines 69–76): empty query matches
everything, otherwise case-insensitive substring match against the
resolved volunteer full name (empty string when unresolved) or the
resolved room name (empty string when unresolved). -/
def matchesSearch (volunteers : List Volunteer) (rooms : List Room)
    (searchValue : String) (p : Planning) : Bool :=
  lowerChars searchValue == [] ||
    (let volunteerName :=
      match findVolunteer volunteers p.volunteerId with
      | some v => lowerChars (volunteerFullName v)
      | none => []
    let roomName :=
      match findRoom rooms p.roomId with
      | some r => lowerChars r.name
      | none => []
    hasSub (lowerChars searchValue) volunteerName ||
      hasSub (lowerChars searchValue) roomName)

/-- `matchesDate` (planning.tsx lines 78–83): no filter matches
everything, otherwise the day-normalized filter date must be *equal* to
the day-normalized start date or end date of the assignment. -/
def matchesDate (dateFilter : Option Nat) (p : Planning) : Bool :=
  match dateFilter with
  | none => true
  | some filterDate => filterDate == p.startDate || filterDate == p.endDate

/-- `filteredPlannings` (planning.tsx lines 68–86): conjunction of the
text and date predicates over the bucket's list. -/
def filteredPlannings (volunteers : List Volunteer) (rooms : List Room)
    (searchValue : String) (dateFilter : Option Nat)
    (plannings : List Planning) : List Planning :=
  plannings.filter (fun p =>
    matchesSearch volunteers rooms searchValue p && matchesDate dateFilter p)

/-- The `'asc' | 'desc'` direction toggle. -/
inductive SortDirection where
  | asc
  | desc
  deriving DecidableEq

/-- The comparator passed to `sort` in `sortedPlannings` (planning.tsx
lines 89–99): when `sortByDate` is off it returns 0 for every pair;
otherwise it compares start dates (negated for `desc`) and falls back to
end dates on a tie. -/
def planningCompare (sortByDate : Bool) (dir : SortDirection)
    (a b : Planning) : Int :=
  if sortByDate then
    let startDateComparison : Int := (a.startDate : Int) - (b.startDate : Int)
    if startDateComparison ≠ 0 then
      match dir with
      | .asc => startDateComparison
      | .desc => -startDateComparison
    else
      let endDateComparison : Int := (a.endDate : Int) - (b.endDate : Int)
      match dir with
      | .asc => endDateComparison
      | .desc => -endDateComparison
  else 0

/-- The non-strict order induced by the comparator: `a` may come before
`b` exactly when the comparator does not demand the opposite order. -/
def codeLe (sortByDate : Bool) (dir : SortDirection) (a b : Planning) : Prop :=
  planningCompare sortByDate dir a b ≤ 0

instance (sortByDate : Bool) (dir : SortDirection) :
    DecidableRel (codeLe sortByDate dir) :=
  fun a b => inferInstanceAs (Decidable (planningCompare sortByDate dir a b ≤ 0))

/-- `sortedPlannings` (planning.tsx lines 88–101): a stable sort of the
filtered list by the comparator (JavaScript `Array.prototype.sort` is
stable, modelled by Mathlib's stable `insertionSort`). -/
def sortedPlannings (sortByDate : Bool) (dir : SortDirection)
    (l : List Planning) : List Planning :=
  List.insertionSort (codeLe sortByDate dir) l

/-- The spec's ordering for C5, written from the spec's words: primary
key startDate in the chosen direction, ties broken by endDate in the
same direction. -/
def specLe (dir : SortDirection) (a b : Planning) : Prop :=
  match dir with
  | .asc => a.startDate < b.startDate ∨
      (a.startDate = b.startDate ∧ a.endDate ≤ b.endDate)
  | .desc => b.startDate < a.startDate ∨
      (a.startDate = b.startDate ∧ b.endDate ≤ a.endDate)

/-- The spec's text predicate for C6, written from the spec's words:
the query is a case-insensitive substring of the resolved volunteer's
"first last" full name or of the resolved room's name; the empty query
matches everything. -/
def specTextMatch (volunteers : List Volunteer) (rooms : List Room)
    (query : String) (p : Planning) : Bool :=
  query == "" ||
    (match findVolunteer volunteers p.volunteerId with
     | some v => hasSub (lowerChars query) (lowerChars (volunteerFullName v))
     | none => false) ||
    (match findRoom rooms p.roomId with
     | some r => hasSub (lowerChars query) (lowerChars r.name)
     | none => false)

/-! ## Calendar Aggregator (PublicCalendar, `getPlanningsForDay` /
`getPlanningsByRoom`)

All dates involved (`parseISO` of `yyyy-MM-dd` strings, and the week days
produced by `startOfWeek`/`addDays`) are midnight instants, so
`isWithinInterval` is interval containment and `isSameDay` is equality at
day granularity. -/

/-- The selection predicate of `getPlanningsForDay` (lines 73–81):
`isWithinInterval(day, {start, end}) || isSameDay(day, start) ||
isSameDay(day, end)`. -/
def dayMatches (day : Nat) (p : Planning) : Bool :=
  (decide (p.startDate ≤ day) && decide (day ≤ p.endDate)) ||
    day == p.startDate || day == p.endDate

/-- `getPlanningsForDay` (lines 72–82). -/
def getPlanningsForDay (plannings : List Planning) (day : Nat) : List Planning :=
  plannings.filter (dayMatches day)

/-- The comparator inside `getPlanningsByRoom` (lines 92–96):
`if (a.isResponsible) return -1; if (b.isResponsible) return 1; return 0`. -/
def respCompare (a b : Planning) : Int :=
  if a.isResponsible then -1 else if b.isResponsible then 1 else 0

/-- The non-strict order induced by `respCompare`. -/
def respLe (a b : Planning) : Prop :=
  respCompare a b ≤ 0

instance : DecidableRel respLe :=
  fun a b => inferInstanceAs (Decidable (respCompare a b ≤ 0))

/-- The stable sort putting responsible assignments first (lines 92–96). -/
def sortRoomPlannings (l : List Planning) : List Planning :=
  List.insertionSort respLe l

/-- `getPlanningsByRoom` (lines 84–102): for each room of the room list
(in order), the day's assignments with that room id, responsible-first;
rooms with no matching assignment are absent.  The JavaScript `Map` with
room-order insertion is modelled as an association list in room order. -/
def getPlanningsByRoom (rooms : List Room) (plannings : List Planning)
    (day : Nat) : List (String × List Planning) :=
  rooms.filterMap (fun room =>
    let roomPlannings :=
      (getPlanningsForDay plannings day).filter (fun p => p.roomId == room.id)
    if roomPlannings.isEmpty then none
    else some (room.id, sortRoomPlannings roomPlannings))

/-! ## Presentation of dangling references (planning.tsx `PlanningTable`
rows, lines 194–203; PublicCalendar volunteer labels, lines 159–182) -/

/-- The table's volunteer cell: `volunteer ? `${first} ${last}` : "-"`. -/
def renderVolunteerName (volunteers : List Volunteer) (p : Planning) : String :=
  match findVolunteer volunteers p.volunteerId with
  | some v => volunteerFullName v
  | none => "-"

/-- The table's room cell: `room ? room.name : "-"`. -/
def renderRoomName (rooms : List Room) (p : Planning) : String :=
  match findRoom rooms p.roomId with
  | some r => r.name
  | none => "-"

/-- The rendered (volunteer, room) cells of the planning table: one row
per planning in the sorted list, dangling references included. -/
def tableRows (volunteers : List Volunteer) (rooms : List Room)
    (sorted : List Planning) : List (String × String) :=
  sorted.map (fun p => (renderVolunteerName volunteers p, renderRoomName rooms p))

/-- The calendar's volunteer label:
`volunteer ? `${first} ${lastName[0]}.` : 'Niet toegewezen'` (indexing an
empty string gives `undefined`, interpolated as the text "undefined"). -/
def calendarVolunteerLabel (volunteers : List Volunteer) (p : Planning) : String :=
  match findVolunteer volunteers p.volunteerId with
  | some v =>
      match v.lastName.data with
      | [] => v.firstName ++ " undefined."
      | c :: _ => v.firstName ++ " " ++ String.mk [c] ++ "."
  | none => "Niet toegewezen"

/-! ## Assignment Mutation Service: bulk create (planning.tsx `onSubmit`,
lines 440–462), modelled as the ordered trace of awaited store writes. -/

/-- One awaited external write issued by the bulk-create path, in program
order: either the single summary audit-log write or one assignment push. -/
inductive StoreEvent where
  | bulkCreateLog (numVolunteers numRooms : Nat) (startDate endDate : Nat)
  | pushPlanning (volunteerId roomId : String) (startDate endDate : Nat)
  deriving DecidableEq

/-- Whether an event is an assignment write (`push` to `plannings`). -/
def StoreEvent.isPush : StoreEvent → Bool
  | .pushPlanning _ _ _ _ => true
  | .bulkCreateLog _ _ _ _ => false

/-- Modelled from the spec: `logUserAction` lives in
`@/lib/activity-logger`, which is not among the provided sources; per §6
("Audit log write shape") and §4.4 each call appends exactly one audit
entry, so a call is recorded as a single `bulkCreateLog` event carrying
the values the call site passes (the volunteer/room counts and the
period). -/
def logBulkCreate (numVolunteers numRooms : Nat) (startDate endDate : Nat) :
    StoreEvent :=
  .bulkCreateLog numVolunteers numRooms startDate endDate

/-- The bulk branch of `onSubmit` (planning.tsx lines 440–462): first the
awaited `logUserAction(PLANNING_BULK_CREATE, ...)`, then the nested
`for...of` loops, each `push` individually awaited, volunteers outer,
rooms inner. -/
def onSubmitBulk (selectedVolunteers selectedRooms : List String)
    (startDate endDate : Nat) : List StoreEvent :=
  logBulkCreate selectedVolunteers.length selectedRooms.length startDate endDate ::
    selectedVolunteers.flatMap (fun volunteerId =>
      selectedRooms.map (fun roomId =>
        StoreEvent.pushPlanning volunteerId roomId startDate endDate))

/-! ## Assignment Mutation Service: delete (planning.tsx `handleDelete`,
lines 400–426), modelled as a state transition on the plannings store and
the audit log. -/

/-- The stored shape under `plannings/{id}` (the id is the key). -/
structure PlanningRecord where
  volunteerId : String
  roomId : String
  startDate : Nat
  endDate : Nat
  deriving DecidableEq

/-- Modelled from the spec: the audit entry written by
`logUserAction(PLANNING_DELETE, ...)` (activity-logger not among the
provided sources); per §6 one entry per call, carrying the resolved
volunteer/room names as the call site interpolates them
(`volunteer?.firstName` etc., `undefined` when unresolved — encoded as
`Option`). -/
structure DeleteLogEntry where
  volunteerFirstName : Option String
  volunteerLastName : Option String
  roomName : Option String
  startDate : Nat
  endDate : Nat
  deriving DecidableEq

/-- The observable outcome of `handleDelete`: the plannings store after
the call, the audit entries appended, and whether the `catch` block ran
(`console.error`, the only failure surface of this path). -/
structure DeleteOutcome where
  store : List (String × PlanningRecord)
  logEntries : List DeleteLogEntry
  consoleError : Bool
  deriving DecidableEq

/-- `handleDelete` (planning.tsx lines 400–426).  When the id is absent,
`snapshot.val()` is `null` and the field access `planningData.volunteerId`
throws a TypeError before `remove` and before `logUserAction`; the
surrounding try/catch swallows it and only writes to the console.  When
the id is present, the record is read, removed, and one DELETE audit
entry with the resolved (possibly missing) names is written. -/
def handleDelete (volunteers : List Volunteer) (rooms : List Room)
    (store : List (String × PlanningRecord)) (id : String) : DeleteOutcome :=
  match store.find? (fun e => e.1 == id) with
  | none =>
      { store := store, logEntries := [], consoleError := true }
  | some (_, planningData) =>
      let volunteer := findVolunteer volunteers planningData.volunteerId
      let room := findRoom rooms planningData.roomId
      { store := store.filter (fun e => !(e.1 == id)),
        logEntries := [⟨volunteer.map (fun v => v.firstName),
                        volunteer.map (fun v => v.lastName),
                        room.map (fun r => r.name),
                        planningData.startDate, planningData.endDate⟩],
        consoleError := false }

/-! ## Public self-registration (register.tsx `onSubmit`, lines 26–46) -/

/-- A record under `pending_volunteers/{id}`: the submitted fields plus
`submittedAt` (an ISO instant, encoded as a number) and `status`. -/
structure PendingVolunteer where
  firstName : String
  lastName : String
  phoneNumber : String
  submittedAt : Nat
  status : String
  deriving DecidableEq

/-- `onSubmit` of the register form (register.tsx lines 26–46): one
`push` of `{...data, submittedAt, status: 'pending'}`; on push failure the
catch block shows a destructive toast and nothing is written.  Returns
the store after the call and whether the success toast was shown. -/
def registerOnSubmit (pushOk : Bool) (now : Nat)
    (firstName lastName phoneNumber : String)
    (store : List PendingVolunteer) : List PendingVolunteer × Bool :=
  if pushOk then
    (store ++ [{ firstName := firstName, lastName := lastName,
                 phoneNumber := phoneNumber, submittedAt := now,
                 status := "pending" }], true)
  else
    (store, false)

end Mefen

namespace Mefen

/-! ## C1 — Temporal Classifier partition -/

/-- C1: For every list of assignments with startDate ≤ endDate and a fixed
"today", the Temporal Classifier places an assignment in Active iff
startDate ≤ today ≤ endDate, in Upcoming iff startDate > today, and in
Past iff endDate < today; and the three buckets are a disjoint partition
covering every input assignment (each input lies in exactly one bucket). -/
theorem temporal_classifier_partition (today : Nat) (ps : List Planning)
    (p : Planning) (hmem : p ∈ ps) (hse : p.startDate ≤ p.endDate) :
    ((p ∈ activePlannings today ps ↔ p.startDate ≤ today ∧ today ≤ p.endDate) ∧
     (p ∈ upcomingPlannings today ps ↔ p.startDate > today) ∧
     (p ∈ pastPlannings today ps ↔ p.endDate < today)) ∧
    ((p ∈ activePlannings today ps ∧ p ∉ upcomingPlannings today ps ∧
        p ∉ pastPlannings today ps) ∨
     (p ∉ activePlannings today ps ∧ p ∈ upcomingPlannings today ps ∧
        p ∉ pastPlannings today ps) ∨
     (p ∉ activePlannings today ps ∧ p ∉ upcomingPlannings today ps ∧
        p ∈ pastPlannings today ps)) := by
  have hA : p ∈ activePlannings today ps ↔ p.startDate ≤ today ∧ today ≤ p.endDate := by
    simp [activePlannings, List.mem_filter, hmem, isActive, decide_eq_true_eq,
      Bool.and_eq_true, ge_iff_le]
  have hU : p ∈ upcomingPlannings today ps ↔ p.startDate > today := by
    simp [upcomingPlannings, List.mem_filter, hmem, isUpcoming, decide_eq_true_eq]
  have hP : p ∈ pastPlannings today ps ↔ p.endDate < today := by
    simp [pastPlannings, List.mem_filter, hmem, isPast, decide_eq_true_eq]
  refine ⟨⟨hA, hU, hP⟩, ?_⟩
  rw [hA, hU, hP]
  omega

/-- Witness for C1 at a concrete input: the spec's own example, with days
encoded relative to 2024-06-01 = day 1 (so 2024-06-10 = 10, etc.):
`start = 10, end = 12, today = 11` is classified Active and in no other
bucket. -/
theorem temporal_classifier_partition_witness :
    (⟨"a", "v1", "r1", 10, 12, false⟩ : Planning) ∈
        ([⟨"a", "v1", "r1", 10, 12, false⟩] : List Planning) ∧
    (10 : Nat) ≤ 12 ∧
    ((((⟨"a", "v1", "r1", 10, 12, false⟩ : Planning) ∈
          activePlannings 11 [⟨"a", "v1", "r1", 10, 12, false⟩] ↔
        (10 : Nat) ≤ 11 ∧ (11 : Nat) ≤ 12) ∧
      ((⟨"a", "v1", "r1", 10, 12, false⟩ : Planning) ∈
          upcomingPlannings 11 [⟨"a", "v1", "r1", 10, 12, false⟩] ↔
        (10 : Nat) > 11) ∧
      ((⟨"a", "v1", "r1", 10, 12, false⟩ : Planning) ∈
          pastPlannings 11 [⟨"a", "v1", "r1", 10, 12, false⟩] ↔
        (12 : Nat) < 11)) ∧
     (((⟨"a", "v1", "r1", 10, 12, false⟩ : Planning) ∈
          activePlannings 11 [⟨"a", "v1", "r1", 10, 12, false⟩] ∧
       (⟨"a", "v1", "r1", 10, 12, false⟩ : Planning) ∉
          upcomingPlannings 11 [⟨"a", "v1", "r1", 10, 12, false⟩] ∧
       (⟨"a", "v1", "r1", 10, 12, false⟩ : Planning) ∉
          pastPlannings 11 [⟨"a", "v1", "r1", 10, 12, false⟩]) ∨
      ((⟨"a", "v1", "r1", 10, 12, false⟩ : Planning) ∉
          activePlannings 11 [⟨"a", "v1", "r1", 10, 12, false⟩] ∧
       (⟨"a", "v1", "r1", 10, 12, false⟩ : Planning) ∈
          upcomingPlannings 11 [⟨"a", "v1", "r1", 10, 12, false⟩] ∧
       (⟨"a", "v1", "r1", 10, 12, false⟩ : Planning) ∉
          pastPlannings 11 [⟨"a", "v1", "r1", 10, 12, false⟩]) ∨
      ((⟨"a", "v1", "r1", 10, 12, false⟩ : Planning) ∉
          activePlannings 11 [⟨"a", "v1", "r1", 10, 12, false⟩] ∧
       (⟨"a", "v1", "r1", 10, 12, false⟩ : Planning) ∉
          upcomingPlannings 11 [⟨"a", "v1", "r1", 10, 12, false⟩] ∧
       (⟨"a", "v1", "r1", 10, 12, false⟩ : Planning) ∈
          pastPlannings 11 [⟨"a", "v1", "r1", 10, 12, false⟩]))) :=
  ⟨by decide, by decide,
    temporal_classifier_partition 11 [⟨"a", "v1", "r1", 10, 12, false⟩]
      ⟨"a", "v1", "r1", 10, 12, false⟩ (by decide) (by decide)⟩

/-! ## C2 — date filter predicate -/

/-- C2 counterexample: the claim says any reference date inside
[startDate, endDate] matches, but for the assignment with range 10..12
the reference date 11 (strictly inside the range) does *not* pass the
code's date predicate, which only tests equality with the endpoints. -/
theorem date_filter_interior_miss :
    matchesDate (some 11) ⟨"p1", "v1", "r1", 10, 12, false⟩ = false ∧
    (10 : Nat) ≤ 11 ∧ (11 : Nat) ≤ 12 := by
  decide

/-- C2 (amended): the date predicate holds iff the reference date,
compared at day granularity, *equals* the assignment's startDate or its
endDate; when no reference date is set, every assignment passes. -/
theorem date_filter_characterization (dateFilter : Option Nat) (p : Planning) :
    matchesDate dateFilter p = true ↔
      dateFilter = none ∨ dateFilter = some p.startDate ∨
        dateFilter = some p.endDate := by
  cases dateFilter with
  | none => simp [matchesDate]
  | some d => simp [matchesDate, Bool.or_eq_true, beq_iff_eq]

/-! ## C3 — Calendar Aggregator day selection -/

/-- C3: for every assignment with startDate ≤ endDate and every day, the
Calendar Aggregator selects the assignment for that day iff the day lies
within [startDate, endDate], both ends inclusive. -/
theorem calendar_day_selection (plannings : List Planning) (day : Nat)
    (p : Planning) (hmem : p ∈ plannings) (hse : p.startDate ≤ p.endDate) :
    p ∈ getPlanningsForDay plannings day ↔
      p.startDate ≤ day ∧ day ≤ p.endDate := by
  simp only [getPlanningsForDay, List.mem_filter, hmem, true_and, dayMatches,
    Bool.or_eq_true, Bool.and_eq_true, decide_eq_true_eq, beq_iff_eq]
  omega

/-- Witness for C3, including the spec's example: the assignment spanning
2024-06-10..2024-06-12 (days 10..12) appears in the per-day selection for
exactly days 10, 11 and 12 of the displayed week 2024-06-10..2024-06-16
(days 10..16). -/
theorem calendar_day_selection_witness :
    ((⟨"p1", "v1", "r1", 10, 12, false⟩ : Planning) ∈
        getPlanningsForDay [⟨"p1", "v1", "r1", 10, 12, false⟩] 11 ↔
      (10 : Nat) ≤ 11 ∧ (11 : Nat) ≤ 12) ∧
    ([10, 11, 12, 13, 14, 15, 16].filter
        (fun d =>
          !(getPlanningsForDay [(⟨"p1", "v1", "r1", 10, 12, false⟩ : Planning)]
              d).isEmpty) = [10, 11, 12]) :=
  ⟨calendar_day_selection [⟨"p1", "v1", "r1", 10, 12, false⟩] 11
      ⟨"p1", "v1", "r1", 10, 12, false⟩ (by decide) (by decide),
   by decide⟩

/-! ## C4 — bulk create trace -/

/-- C4 counterexample: with 1 volunteer and 1 room the bulk-create trace
is the single BULK_CREATE audit write *followed by* the one assignment
write — the audit entry precedes the assignment writes, so it is not
written after the last assignment write as the claim states. -/
theorem bulk_create_log_first :
    onSubmitBulk ["v1"] ["r1"] 10 12 =
      [StoreEvent.bulkCreateLog 1 1 10 12,
       StoreEvent.pushPlanning "v1" "r1" 10 12] ∧
    (onSubmitBulk ["v1"] ["r1"] 10 12).head? =
      some (StoreEvent.bulkCreateLog 1 1 10 12) := by
  decide

/-- The cartesian push block has length N×M. -/
theorem bulk_pushes_length (vols rooms : List String) (s e : Nat) :
    (vols.flatMap (fun v =>
        rooms.map (fun r => StoreEvent.pushPlanning v r s e))).length =
      vols.length * rooms.length := by
  induction vols with
  | nil => simp
  | cons v t ih => simp [List.flatMap_cons, ih, Nat.succ_mul, Nat.add_comm]

/-- C4 (amended): a bulk-create submission with N selected volunteers and
M selected rooms issues exactly N×M assignment writes (one per
volunteer×room pair, all with the same date range), sequentially awaited
in program order, and exactly one BULK_CREATE summary audit entry, which
is written *before* the first assignment write. -/
theorem bulk_create_trace (vols rooms : List String) (s e : Nat) :
    onSubmitBulk vols rooms s e =
      StoreEvent.bulkCreateLog vols.length rooms.length s e ::
        vols.flatMap (fun v =>
          rooms.map (fun r => StoreEvent.pushPlanning v r s e)) ∧
    ((onSubmitBulk vols rooms s e).filter StoreEvent.isPush).length =
      vols.length * rooms.length ∧
    (onSubmitBulk vols rooms s e).filter
        (fun ev => !ev.isPush) =
      [StoreEvent.bulkCreateLog vols.length rooms.length s e] := by
  have hpush : ∀ ev ∈ vols.flatMap (fun v =>
      rooms.map (fun r => StoreEvent.pushPlanning v r s e)),
      StoreEvent.isPush ev = true := by
    intro ev hev
    rcases List.mem_flatMap.mp hev with ⟨v, _, hv⟩
    rcases List.mem_map.mp hv with ⟨r, _, rfl⟩
    rfl
  refine ⟨rfl, ?_, ?_⟩
  · rw [onSubmitBulk, List.filter_cons]
    simp only [logBulkCreate, StoreEvent.isPush, Bool.false_eq_true, if_false]
    rw [List.filter_eq_self.mpr hpush]
    exact bulk_pushes_length vols rooms s e
  · rw [onSubmitBulk, List.filter_cons]
    simp only [logBulkCreate, StoreEvent.isPush, Bool.not_false, if_true]
    rw [List.filter_eq_nil_iff.mpr]
    intro ev hev
    rcases List.mem_flatMap.mp hev with ⟨v, _, hv⟩
    rcases List.mem_map.mp hv with ⟨r, _, rfl⟩
    simp [StoreEvent.isPush]

/-! ## C9 — delete of a non-existent id -/

/-- C9: deleting an id with no record in the plannings store raises no
exception past the catch boundary (the outcome is an ordinary value whose
only failure surface is the console flag), removes nothing, and writes no
audit entry at all — in particular none containing resolved
volunteer/room names. -/
theorem delete_nonexistent_silent (volunteers : List Volunteer)
    (rooms : List Room) (store : List (String × PlanningRecord)) (id : String)
    (h : ∀ entry ∈ store, entry.1 ≠ id) :
    (handleDelete volunteers rooms store id).consoleError = true ∧
    (handleDelete volunteers rooms store id).logEntries = [] ∧
    (handleDelete volunteers rooms store id).store = store := by
  have hf : store.find? (fun e => e.1 == id) = none := by
    rw [List.find?_eq_none]
    intro e he
    simpa using h e he
  simp [handleDelete, hf]

/-- Witness for C9: deleting id "ghost" from a store holding only "p1". -/
theorem delete_nonexistent_silent_witness :
    (handleDelete [] [] [("p1", ⟨"v1", "r1", 10, 12⟩)] "ghost").consoleError
        = true ∧
    (handleDelete [] [] [("p1", ⟨"v1", "r1", 10, 12⟩)] "ghost").logEntries
        = [] ∧
    (handleDelete [] [] [("p1", ⟨"v1", "r1", 10, 12⟩)] "ghost").store
        = [("p1", ⟨"v1", "r1", 10, 12⟩)] :=
  delete_nonexistent_silent [] [] [("p1", ⟨"v1", "r1", 10, 12⟩)] "ghost"
    (by decide)

/-! ## C10 — public self-registration -/

/-- C10: a successful submission of the register form appends exactly one
record to `pending_volunteers` carrying the submitted firstName, lastName
and phoneNumber together with status "pending" and the submission
timestamp; a failed push writes nothing; and every record the operation
adds (under any outcome) has status "pending" — no registration record is
created with any other initial status. -/
theorem register_single_pending (pushOk : Bool) (now : Nat)
    (fn ln pn : String) (store : List PendingVolunteer) :
    (pushOk = true →
      (registerOnSubmit pushOk now fn ln pn store).1 =
        store ++ [{ firstName := fn, lastName := ln, phoneNumber := pn,
                    submittedAt := now, status := "pending" }] ∧
      (registerOnSubmit pushOk now fn ln pn store).1.length =
        store.length + 1) ∧
    (pushOk = false →
      (registerOnSubmit pushOk now fn ln pn store).1 = store) ∧
    (∀ r ∈ (registerOnSubmit pushOk now fn ln pn store).1,
      r ∈ store ∨
        (r.firstName = fn ∧ r.lastName = ln ∧ r.phoneNumber = pn ∧
         r.submittedAt = now ∧ r.status = "pending")) := by
  cases pushOk with
  | false =>
      refine ⟨fun h => by simp at h, fun _ => rfl, ?_⟩
      intro r hr
      exact Or.inl (by simpa [registerOnSubmit] using hr)
  | true =>
      refine ⟨fun _ => ⟨rfl, by simp [registerOnSubmit]⟩,
        fun h => by simp at h, ?_⟩
      intro r hr
      rcases (by simpa [registerOnSubmit] using hr :
          r ∈ store ∨ r = PendingVolunteer.mk fn ln pn now "pending")
        with h | rfl
      · exact Or.inl h
      · exact Or.inr ⟨rfl, rfl, rfl, rfl, rfl⟩

/-! ## C5 — sort order of the Filter/Sort Engine -/

/-- With sorting disabled the comparator returns 0 on every pair, so the
induced order relates everything. -/
theorem codeLe_false (dir : SortDirection) (a b : Planning) :
    codeLe false dir a b := by
  simp [codeLe, planningCompare]

/-- Any list is sorted under a relation relating every pair. -/
theorem sorted_of_total_const {r : Planning → Planning → Prop}
    (h : ∀ a b, r a b) : ∀ l : List Planning, List.Sorted r l := by
  intro l
  induction l with
  | nil => exact List.sorted_nil
  | cons a t ih => exact List.Pairwise.cons (fun b _ => h a b) ih

/-- The comparator-induced order with sorting enabled coincides with the
spec's order: startDate first in the chosen direction, endDate as the
tie-break. -/
theorem codeLe_true_iff (dir : SortDirection) (a b : Planning) :
    codeLe true dir a b ↔ specLe dir a b := by
  unfold codeLe planningCompare specLe
  cases dir <;> simp only [if_true] <;> split <;> omega

/-- C5: for every list, when sorting is enabled the engine's output is a
permutation of its input ordered by startDate in the chosen direction
with ties broken by endDate in the same direction; when sorting is
disabled the output is exactly the input (original order preserved). -/
theorem filter_sort_engine_order (dir : SortDirection) (l : List Planning) :
    sortedPlannings false dir l = l ∧
    List.Sorted (specLe dir) (sortedPlannings true dir l) ∧
    (sortedPlannings true dir l).Perm l := by
  refine ⟨?_, ?_, List.perm_insertionSort _ l⟩
  · exact List.Sorted.insertionSort_eq (sorted_of_total_const (codeLe_false dir) l)
  · haveI htot : IsTotal Planning (codeLe true dir) := ⟨by
      intro a b
      rw [codeLe_true_iff, codeLe_true_iff]
      cases dir <;> simp only [specLe] <;> omega⟩
    haveI htrans : IsTrans Planning (codeLe true dir) := ⟨by
      intro a b c hab hbc
      rw [codeLe_true_iff] at hab hbc ⊢
      cases dir <;> simp only [specLe] at hab hbc ⊢ <;> omega⟩
    exact (List.sorted_insertionSort (codeLe true dir) l).imp
      (fun hab => (codeLe_true_iff dir _ _).mp hab)

/-! ## C6 — text predicate of the Filter/Sort Engine -/

/-- Lowercasing preserves emptiness. -/
theorem lowerChars_eq_nil_iff (s : String) : lowerChars s = [] ↔ s = "" := by
  rw [String.ext_iff]
  simp [lowerChars, List.map_eq_nil_iff]

/-- A non-empty needle never occurs in the empty haystack. -/
theorem hasSub_nil_of_ne (l : List Char) (h : l ≠ []) : hasSub l [] = false := by
  cases l with
  | nil => exact absurd rfl h
  | cons c t => rfl

/-- C6: the engine's text predicate agrees on every input with the spec's
predicate (case-insensitive substring of the resolved volunteer's
"first last" name or the resolved room's name; empty query matches
everything); and concretely the queries "aNnA" and "anna" both match an
assignment whose volunteer is "Anna Jansen". -/
theorem text_predicate_matches_spec :
    (∀ (vols : List Volunteer) (rooms : List Room) (q : String) (p : Planning),
        matchesSearch vols rooms q p = specTextMatch vols rooms q p) ∧
    (∀ (vols : List Volunteer) (rooms : List Room) (p : Planning),
        matchesSearch vols rooms "" p = true) ∧
    matchesSearch [⟨"v1", "Anna", "Jansen"⟩] [] "aNnA"
        ⟨"p1", "v1", "r1", 0, 0, false⟩ = true ∧
    matchesSearch [⟨"v1", "Anna", "Jansen"⟩] [] "anna"
        ⟨"p1", "v1", "r1", 0, 0, false⟩ = true := by
  have hmain : ∀ (vols : List Volunteer) (rooms : List Room) (q : String)
      (p : Planning), matchesSearch vols rooms q p = specTextMatch vols rooms q p := by
    intro vols rooms q p
    by_cases hq : q = ""
    · subst hq
      have h0 : (lowerChars "" == ([] : List Char)) = true := rfl
      simp [matchesSearch, specTextMatch, h0]
    · have hlq : lowerChars q ≠ [] := fun h => hq ((lowerChars_eq_nil_iff q).mp h)
      have hq' : (q == "") = false := by
        simpa using hq
      have hlq' : (lowerChars q == ([] : List Char)) = false := by
        simpa using hlq
      cases hv : findVolunteer vols p.volunteerId <;>
        cases hr : findRoom rooms p.roomId <;>
          simp [matchesSearch, specTextMatch, hv, hr, hq', hlq',
            hasSub_nil_of_ne _ hlq]
  refine ⟨hmain, ?_, by decide, by decide⟩
  intro vols rooms p
  have h0 : (lowerChars "" == ([] : List Char)) = true := rfl
  simp [matchesSearch, h0]

/-! ## C7 — responsible-first ordering in the Calendar Aggregator -/

/-- Characterization of the order induced by `respCompare`. -/
theorem respLe_iff (a b : Planning) :
    respLe a b ↔ (a.isResponsible = true ∨ b.isResponsible = false) := by
  cases ha : a.isResponsible <;> cases hb : b.isResponsible <;>
    simp [respLe, respCompare, ha, hb]

/-- Inserting into a list moves past responsible entries only, so the
non-responsible sublist is preserved up to prepending the new element
when it is itself non-responsible. -/
theorem filter_not_resp_orderedInsert (x : Planning) (l : List Planning) :
    (List.orderedInsert respLe x l).filter (fun p => !p.isResponsible) =
      (if x.isResponsible then [] else [x]) ++
        l.filter (fun p => !p.isResponsible) := by
  induction l with
  | nil =>
      cases hx : x.isResponsible <;>
        simp [List.orderedInsert, List.filter_cons, hx]
  | cons b t ih =>
      by_cases h : respLe x b
      · simp only [List.orderedInsert, if_pos h]
        cases hx : x.isResponsible <;>
          simp [List.filter_cons, hx]
      · have hx : x.isResponsible = false := by
          cases hxx : x.isResponsible
          · rfl
          · exact absurd ((respLe_iff x b).mpr (Or.inl hxx)) h
        have hb : b.isResponsible = true := by
          cases hbb : b.isResponsible
          · exact absurd ((respLe_iff x b).mpr (Or.inr hbb)) h
          · rfl
        simp only [List.orderedInsert, if_neg h]
        simp [List.filter_cons, hb, hx, ih]

/-- Stability of the responsible-first sort on the non-responsible part:
their relative order is that of the input. -/
theorem filter_not_resp_sortRoom (l : List Planning) :
    (sortRoomPlannings l).filter (fun p => !p.isResponsible) =
      l.filter (fun p => !p.isResponsible) := by
  induction l with
  | nil => rfl
  | cons b t ih =>
      have : sortRoomPlannings (b :: t) =
          List.orderedInsert respLe b (sortRoomPlannings t) := rfl
      rw [this, filter_not_resp_orderedInsert, ih]
      cases hb : b.isResponsible <;> simp [List.filter_cons, hb]

/-- C7: in every room group of the calendar's per-day map, responsible
assignments precede non-responsible ones (pairwise: whenever a later
entry is responsible the earlier one is too), and the non-responsible
entries keep exactly the input (store) order — the computation is a pure
function, hence identical across repeated runs on the same input. -/
theorem calendar_responsible_first (rooms : List Room)
    (plannings : List Planning) (day : Nat) (rid : String)
    (l : List Planning)
    (h : (rid, l) ∈ getPlanningsByRoom rooms plannings day) :
    l.Pairwise (fun a b => b.isResponsible = true → a.isResponsible = true) ∧
    l.filter (fun p => !p.isResponsible) =
      ((getPlanningsForDay plannings day).filter
          (fun p => p.roomId == rid)).filter (fun p => !p.isResponsible) := by
  simp only [getPlanningsByRoom, List.mem_filterMap] at h
  rcases h with ⟨room, hroom, hsome⟩
  by_cases hemp : ((getPlanningsForDay plannings day).filter
      (fun p => p.roomId == room.id)).isEmpty = true
  · rw [if_pos hemp] at hsome
    cases hsome
  · rw [if_neg hemp] at hsome
    obtain ⟨hrid, hl⟩ := Prod.mk.injEq .. ▸ Option.some.inj hsome
    subst hrid
    subst hl
    constructor
    · haveI htot : IsTotal Planning respLe := ⟨by
        intro a b
        rw [respLe_iff, respLe_iff]
        cases ha : a.isResponsible <;> cases hb : b.isResponsible <;> simp⟩
      haveI htrans : IsTrans Planning respLe := ⟨by
        intro a b c hab hbc
        rw [respLe_iff] at hab hbc ⊢
        cases ha : a.isResponsible <;> cases hc : c.isResponsible <;>
          simp_all⟩
      exact (List.sorted_insertionSort respLe _).imp
        (fun hab hresp => by
          rcases (respLe_iff _ _).mp hab with h1 | h1
          · exact h1
          · rw [hresp] at h1
            cases h1)
    · exact filter_not_resp_sortRoom _

/-- Witness for C7: a room/day group with one responsible and two
non-responsible assignments — the responsible one comes first and the
other two keep their store order. -/
theorem calendar_responsible_first_witness :
    (([⟨"p2", "v2", "r1", 1, 9, true⟩, ⟨"p1", "v1", "r1", 1, 9, false⟩,
        ⟨"p3", "v3", "r1", 1, 9, false⟩] : List Planning).Pairwise
      (fun a b => b.isResponsible = true → a.isResponsible = true)) ∧
    (([⟨"p2", "v2", "r1", 1, 9, true⟩, ⟨"p1", "v1", "r1", 1, 9, false⟩,
        ⟨"p3", "v3", "r1", 1, 9, false⟩] : List Planning).filter
        (fun p => !p.isResponsible) =
      ((getPlanningsForDay
          [⟨"p1", "v1", "r1", 1, 9, false⟩, ⟨"p2", "v2", "r1", 1, 9, true⟩,
           ⟨"p3", "v3", "r1", 1, 9, false⟩] 5).filter
          (fun p => p.roomId == "r1")).filter (fun p => !p.isResponsible)) :=
  calendar_responsible_first [⟨"r1", "Hal"⟩]
    [⟨"p1", "v1", "r1", 1, 9, false⟩, ⟨"p2", "v2", "r1", 1, 9, true⟩,
     ⟨"p3", "v3", "r1", 1, 9, false⟩] 5 "r1"
    [⟨"p2", "v2", "r1", 1, 9, true⟩, ⟨"p1", "v1", "r1", 1, 9, false⟩,
     ⟨"p3", "v3", "r1", 1, 9, false⟩] (by decide)

/-! ## C8 — dangling volunteer/room references -/

/-- C8 counterexample: an assignment whose roomId matches no room is
selected for day 11 of its range by `getPlanningsForDay`, yet the per-day
room map built by `getPlanningsByRoom` is empty — the assignment does
*not* appear in the calendar output, contrary to the claim's final part. -/
theorem dangling_room_calendar_dropped :
    findRoom [] "ghost" = none ∧
    (10 : Nat) ≤ 11 ∧ (11 : Nat) ≤ 12 ∧
    getPlanningsForDay [⟨"p1", "v1", "ghost", 10, 12, false⟩] 11 =
      [⟨"p1", "v1", "ghost", 10, 12, false⟩] ∧
    getPlanningsByRoom [] [⟨"p1", "v1", "ghost", 10, 12, false⟩] 11 = [] := by
  decide

/-- C8 (amended): for every assignment whose volunteerId or roomId
references no existing record, no presentation path raises an error; the
planning table still presents the assignment, rendering "-" in place of
whichever name is missing, and the calendar renders a missing volunteer
as the "Niet toegewezen" placeholder — but an assignment whose roomId
matches no room is absent from the calendar's per-day room map (it
appears in no room group on any day). -/
theorem dangling_reference_presentation (volunteers : List Volunteer)
    (rooms : List Room) (plannings : List Planning) (p : Planning)
    (hmem : p ∈ plannings)
    (_hd : findVolunteer volunteers p.volunteerId = none ∨
           findRoom rooms p.roomId = none) :
    (renderVolunteerName volunteers p, renderRoomName rooms p) ∈
        tableRows volunteers rooms plannings ∧
    (findVolunteer volunteers p.volunteerId = none →
      renderVolunteerName volunteers p = "-" ∧
      calendarVolunteerLabel volunteers p = "Niet toegewezen") ∧
    (findRoom rooms p.roomId = none →
      renderRoomName rooms p = "-" ∧
      ∀ (day : Nat) (rid : String) (l : List Planning),
        (rid, l) ∈ getPlanningsByRoom rooms plannings day → p ∉ l) := by
  refine ⟨List.mem_map_of_mem _ hmem, ?_, ?_⟩
  · intro hv
    exact ⟨by simp [renderVolunteerName, hv],
      by simp [calendarVolunteerLabel, hv]⟩
  · intro hr
    refine ⟨by simp [renderRoomName, hr], ?_⟩
    intro day rid l hl hpl
    simp only [getPlanningsByRoom, List.mem_filterMap] at hl
    rcases hl with ⟨room, hroom, hsome⟩
    by_cases hemp : ((getPlanningsForDay plannings day).filter
        (fun q => q.roomId == room.id)).isEmpty = true
    · rw [if_pos hemp] at hsome
      cases hsome
    · rw [if_neg hemp] at hsome
      obtain ⟨hrid, hl2⟩ := Prod.mk.injEq .. ▸ Option.some.inj hsome
      rw [← hl2] at hpl
      have hbase : p ∈ (getPlanningsForDay plannings day).filter
          (fun q => q.roomId == room.id) :=
        (List.perm_insertionSort respLe _).mem_iff.mp hpl
      have hpr : p.roomId = room.id := by
        simpa using (List.mem_filter.mp hbase).2
      have := List.find?_eq_none.mp hr room hroom
      simp [hpr] at this

/-- Witness for C8 (amended) at a concrete single-dangling input: one
assignment whose volunteerId resolves to no volunteer while its roomId
resolves to the room "Hal". -/
theorem dangling_reference_presentation_witness :
    (renderVolunteerName [] ⟨"p1", "vx", "r1", 10, 12, false⟩,
        renderRoomName [⟨"r1", "Hal"⟩] ⟨"p1", "vx", "r1", 10, 12, false⟩) ∈
        tableRows [] [⟨"r1", "Hal"⟩] [⟨"p1", "vx", "r1", 10, 12, false⟩] ∧
    (findVolunteer [] "vx" = none →
      renderVolunteerName [] ⟨"p1", "vx", "r1", 10, 12, false⟩ = "-" ∧
      calendarVolunteerLabel [] ⟨"p1", "vx", "r1", 10, 12, false⟩ =
        "Niet toegewezen") ∧
    (findRoom [⟨"r1", "Hal"⟩] "r1" = none →
      renderRoomName [⟨"r1", "Hal"⟩] ⟨"p1", "vx", "r1", 10, 12, false⟩ = "-" ∧
      ∀ (day : Nat) (rid : String) (l : List Planning),
        (rid, l) ∈ getPlanningsByRoom [⟨"r1", "Hal"⟩]
            [⟨"p1", "vx", "r1", 10, 12, false⟩] day →
          (⟨"p1", "vx", "r1", 10, 12, false⟩ : Planning) ∉ l) :=
  dangling_reference_presentation [] [⟨"r1", "Hal"⟩]
    [⟨"p1", "vx", "r1", 10, 12, false⟩]
    ⟨"p1", "vx", "r1", 10, 12, false⟩ (by decide) (Or.inl (by decide))

/-- Witness for C10: a concrete successful submission. -/
theorem register_single_pending_witness :
    ((true : Bool) = true →
      (registerOnSubmit true 99 "Anna" "Jansen" "0123" []).1 =
        [] ++ [{ firstName := "Anna", lastName := "Jansen",
                 phoneNumber := "0123", submittedAt := 99,
                 status := "pending" }] ∧
      (registerOnSubmit true 99 "Anna" "Jansen" "0123" []).1.length =
        List.length ([] : List PendingVolunteer) + 1) ∧
    ((true : Bool) = false →
      (registerOnSubmit true 99 "Anna" "Jansen" "0123" []).1 = []) ∧
    (∀ r ∈ (registerOnSubmit true 99 "Anna" "Jansen" "0123" []).1,
      r ∈ ([] : List PendingVolunteer) ∨
        (r.firstName = "Anna" ∧ r.lastName = "Jansen" ∧
         r.phoneNumber = "0123" ∧ r.submittedAt = 99 ∧
         r.status = "pending")) :=
  register_single_pending true 99 "Anna" "Jansen" "0123" []

end Mefen
